import Mathlib

/-!
# Verification of the kinobi-landing teaser generators

Shallow embedding of the frame/audio pipeline shared by the scripts
`gen_teaser_v2.py`, `gen_teaser_v4.py`, `gen_teaser_v5.py` and
`gen_teaser_v6.py`.  The four variants agree on every function verified
here; `gen_teaser_v6.py` is taken as the authority and constants are its
constants.  Real-valued Python arithmetic is embedded over `ℚ`;
Python's `int(x)` conversion (truncation towards zero) is `pyInt`.
-/

namespace Kinobi

/-- Canvas width, from `W, H = 3840, 2160` in gen_teaser_v6.py. -/
def W : ℤ := 3840

/-- Canvas height. -/
def H : ℤ := 2160

/-- Horizontal padding `PAD_X = 112`. -/
def PAD_X : ℤ := 112

/-- Vertical padding `PAD_Y = 80`. -/
def PAD_Y : ℤ := 80

/-- Title bar height `TITLE_BAR_H = 96`. -/
def TITLE_BAR_H : ℤ := 96

/-- Line height `LINE_H = 92`. -/
def LINE_H : ℤ := 92

/-- Frames per second `FPS = 24`. -/
def FPS : ℕ := 24

/-- Cursor blink interval `BLINK_INTERVAL = 12`. -/
def BLINK_INTERVAL : ℕ := 12

/-- Scroll smoothing factor `SCROLL_SPEED = 0.15`. -/
def SCROLL_SPEED : ℚ := 15 / 100

/-- Audio sample rate `SAMPLE_RATE = 44100`. -/
def SAMPLE_RATE : ℕ := 44100

/-- An RGB colour triple. -/
abbrev Color := ℕ × ℕ × ℕ

/-- `BG = (13, 13, 15)`. -/
def BG : Color := (13, 13, 15)

/-- `TITLE_BG = (30, 30, 34)`. -/
def TITLE_BG : Color := (30, 30, 34)

/-- `PRIMARY = (251, 113, 133)`. -/
def PRIMARY : Color := (251, 113, 133)

/-- `CURSOR_COLOR = PRIMARY`. -/
def CURSOR_COLOR : Color := PRIMARY

/-- `PROMPT_COLOR = PRIMARY`. -/
def PROMPT_COLOR : Color := PRIMARY

/-- The prompt glyph `PROMPT_ICON = "木"`. -/
def PROMPT_ICON : String := "木"

/-- Python `int(x)` applied to a rational: truncation towards zero. -/
def pyInt (q : ℚ) : ℤ := if 0 ≤ q then ⌊q⌋ else ⌈q⌉

/-- One coloured text run `(text, color)`, as stored in a line. -/
abbrev Run := String × Color

/-- A line of the terminal buffer: a list of text runs. -/
abbrev Line := List Run

/-- `content_bottom(lines) = len(lines) * LINE_H` (gen_teaser_v6.py line 203). -/
def content_bottom (lines : List Line) : ℤ := (lines.length : ℤ) * LINE_H

/-- `target_scroll(lines)` (gen_teaser_v6.py lines 207-210):
`max(0, content_h - viewport_h + LINE_H * 2)` with
`viewport_h = H - TITLE_BAR_H - PAD_Y * 2`. -/
def target_scroll (lines : List Line) : ℤ :=
  let content_h := content_bottom lines
  let viewport_h := H - TITLE_BAR_H - PAD_Y * 2
  max 0 (content_h - viewport_h + LINE_H * 2)

/-- The spec's formula for the scroll target, written exactly from the
spec sentence: `max(0, content_height(L) - viewport_height + 2*LINE_H)`
with `content_height(L) = len(L)*LINE_H` and
`viewport_height = H - TITLE_BAR_H - 2*PAD_Y`.  Used to compare the
spec contract with the embedded `target_scroll`. -/
def target_scroll_spec (lines : List Line) : ℤ :=
  max 0 ((lines.length : ℤ) * LINE_H - (H - TITLE_BAR_H - 2 * PAD_Y) + 2 * LINE_H)

/-- `smooth_scroll(current, target)` (gen_teaser_v6.py lines 213-217):
return `target` when `|target - current| < 1`, otherwise move by
`SCROLL_SPEED` of the gap. -/
def smooth_scroll (current target : ℚ) : ℚ :=
  let diff := target - current
  if |diff| < 1 then target else current + diff * SCROLL_SPEED

/-- Sample-buffer size allocated by `generate_audio` (gen_teaser_v6.py
lines 169-171): `total_samples = int(total_frames / FPS * SAMPLE_RATE)`,
i.e. the floor of `total_frames * SAMPLE_RATE / FPS` under exact
arithmetic. -/
def totalSamples (total_frames : ℕ) : ℕ := total_frames * SAMPLE_RATE / FPS

/-- The spec's formula for the buffer size, written from the spec
sentence: `ceil(total_frames / fps * sample_rate)`.  Used to compare the
spec contract with the embedded `totalSamples`. -/
def ceilSamples (total_frames : ℕ) : ℕ :=
  (Int.ceil ((total_frames : ℚ) / (FPS : ℚ) * (SAMPLE_RATE : ℚ))).toNat

/-- Start position of an audio event's waveform in the sample buffer
(gen_teaser_v6.py line 177): `pos = int((frame_num / FPS) * SAMPLE_RATE)`. -/
def samplePos (frame_num : ℕ) : ℕ := frame_num * SAMPLE_RATE / FPS

/-- One mixing loop of `generate_audio` (gen_teaser_v6.py lines 178-181):
for each sample `i` of the waveform `w`, add `w[i]` at index `pos + i`
when that index is inside the buffer, else drop it silently. -/
def mixEvent (buf : List ℚ) (pos : ℕ) (w : List ℚ) : List ℚ :=
  (List.range w.length).foldl
    (fun b i =>
      if pos + i < b.length then b.set (pos + i) (b.getD (pos + i) 0 + w.getD i 0) else b)
    buf

/-- Mix every event of a list at its `samplePos`, in order. -/
def mixEvents (buf : List ℚ) (event_frames : List ℕ) (w : List ℚ) : List ℚ :=
  event_frames.foldl (fun b frame_num => mixEvent b (samplePos frame_num) w) buf

/-- The sample buffer produced by `generate_audio(total_frames, path)`
(gen_teaser_v6.py lines 167-188) before quantization: a zero buffer of
`totalSamples total_frames` samples, then the tok waveform mixed at every
frame of `tok_frames` and the bell waveform at every frame of
`bell_frames`.  The waveforms themselves come from `generate_tok_samples`
and `generate_bell_samples`, which are transcendental (`math.exp`,
`math.sin`); they enter here as the parameters `tok` and `bell`, since no
claim depends on their sample values. -/
def generate_audio (total_frames : ℕ) (tok_frames bell_frames : List ℕ)
    (tok bell : List ℚ) : List ℚ :=
  let audio : List ℚ := List.replicate (totalSamples total_frames) 0
  let audio := mixEvents audio tok_frames tok
  mixEvents audio bell_frames bell

/-- Captured data of the spinner overlay closure `draw_extra`
(gen_teaser_v6.py lines 356-374): the per-frame progress value, cycle
colour, status text and integer percentage it draws. -/
structure SpinnerInfo where
  progress : ℚ
  cycleColor : Color
  status : String
  pct : ℤ
deriving Repr, DecidableEq, Inhabited

/-- The data passed to `render_frame` for one captured frame: the line
buffer, the scroll offset, the optional cursor runs and visibility, the
optional spinner overlay and the optional signoff colour override. -/
structure FrameSpec where
  lines : List Line
  scroll : ℚ
  cursorParts : Option (List Run)
  cursorVisible : Bool
  spinner : Option SpinnerInfo
  signoff : Option Color
deriving Repr, DecidableEq, Inhabited

/-- `PROMPT = [(PROMPT_ICON + " ", PROMPT_COLOR)]` (gen_teaser_v6.py line 280). -/
def PROMPT : List Run := [(PROMPT_ICON ++ " ", PROMPT_COLOR)]

/-- The mutable module state of a run: the captured frame list `frames`,
the line buffer `current_lines`, the scroll offset `scroll_y`, and the
recorded audio event frame lists `tok_frames` / `bell_frames`. -/
structure St where
  frames : List FrameSpec
  current_lines : List Line
  scroll_y : ℚ
  tok_frames : List ℕ
  bell_frames : List ℕ

/-- The initial module state: empty frame list and buffer, `scroll_y = 0`. -/
def St.init : St := ⟨[], [], 0, [], []⟩

/-- One iteration of the `add_typing` loop (gen_teaser_v6.py lines
290-297): build the partial cursor runs from `text[:i+1]`, smooth the
scroll towards the target of the buffer extended by the cursor line,
render, and append the frame only when `i % speed == 0`. -/
def typingStep (pre : List Run) (text : String) (color : Color) (speed : ℕ)
    (s : St) (i : ℕ) : St :=
  let part := text.take (i + 1)
  let cursor_parts := pre ++ [(part, color)]
  let tgt := target_scroll (s.current_lines ++ [cursor_parts])
  let sy := smooth_scroll s.scroll_y (tgt : ℚ)
  let f : FrameSpec := ⟨s.current_lines, sy, some cursor_parts, true, none, none⟩
  { s with scroll_y := sy,
           frames := if i % speed = 0 then s.frames ++ [f] else s.frames }

/-- `add_typing(text, color, prompt=True, speed=1, use_prompt=True)`
(gen_teaser_v6.py lines 287-297). -/
def add_typing (text : String) (color : Color) (prompt : Bool := true)
    (speed : ℕ := 1) (use_prompt : Bool := true) (s : St) : St :=
  let pre := if prompt && use_prompt then PROMPT else []
  (List.range text.length).foldl (typingStep pre text color speed) s

/-- `add_tok()` (gen_teaser_v6.py lines 300-302): record the current
frame index in `tok_frames`. -/
def add_tok (s : St) : St :=
  { s with tok_frames := s.tok_frames ++ [s.frames.length] }

/-- `add_bell()` (gen_teaser_v6.py lines 305-307): record the current
frame index in `bell_frames`. -/
def add_bell (s : St) : St :=
  { s with bell_frames := s.bell_frames ++ [s.frames.length] }

/-- `add_pause(n_frames, blink=True)` (gen_teaser_v6.py lines 310-319):
append `n_frames` frames with a (possibly blinking) prompt cursor. -/
def add_pause (n_frames : ℕ) (blink : Bool := true) (s : St) : St :=
  (List.range n_frames).foldl
    (fun s i =>
      let tgt := target_scroll s.current_lines
      let sy := smooth_scroll s.scroll_y (tgt : ℚ)
      let vis := if blink then decide ((i / BLINK_INTERVAL) % 2 = 0) else true
      { s with scroll_y := sy,
               frames := s.frames ++ [⟨s.current_lines, sy, some PROMPT, vis, none, none⟩] })
    s

/-- `add_pause_no_prompt(n_frames, blink=True)` (gen_teaser_v6.py lines
322-330): like `add_pause` but with empty cursor runs. -/
def add_pause_no_prompt (n_frames : ℕ) (blink : Bool := true) (s : St) : St :=
  (List.range n_frames).foldl
    (fun s i =>
      let tgt := target_scroll s.current_lines
      let sy := smooth_scroll s.scroll_y (tgt : ℚ)
      let vis := if blink then decide ((i / BLINK_INTERVAL) % 2 = 0) else true
      { s with scroll_y := sy,
               frames := s.frames ++ [⟨s.current_lines, sy, some [], vis, none, none⟩] })
    s

/-- `add_output_lines(output, delay=3)` (gen_teaser_v6.py lines 333-341):
append each line to the buffer, then capture `delay` frames. -/
def add_output_lines (output : List Line) (delay : ℕ := 3) (s : St) : St :=
  output.foldl
    (fun s line =>
      let s := { s with current_lines := s.current_lines ++ [line] }
      (List.range delay).foldl
        (fun s _ =>
          let tgt := target_scroll s.current_lines
          let sy := smooth_scroll s.scroll_y (tgt : ℚ)
          { s with scroll_y := sy,
                   frames := s.frames ++ [⟨s.current_lines, sy, none, true, none, none⟩] })
        s)
    s

/-- The cycle colours `CYCLE_COLORS = [PRIMARY, GREEN, CYAN, YELLOW]`. -/
def CYCLE_COLORS : List Color :=
  [PRIMARY, (52, 211, 153), (103, 232, 249), (250, 204, 21)]

/-- The per-frame progress value of `add_spinner_progress`
(gen_teaser_v6.py line 348):
`progress = progress_start + (progress_end - progress_start) * (i / max(n_frames - 1, 1))`. -/
def spinnerProgress (n_frames : ℕ) (progress_start progress_end : ℚ) (i : ℕ) : ℚ :=
  progress_start + (progress_end - progress_start) * ((i : ℚ) / (max (n_frames - 1) 1 : ℕ))

/-- The bar width `bar_w = 880` of the spinner overlay. -/
def bar_w : ℤ := 880

/-- The drawn bar-fill width of spinner frame `i`
(gen_teaser_v6.py line 368): `fill_w = int(bar_w * p)`. -/
def spinnerFillW (n_frames : ℕ) (progress_start progress_end : ℚ) (i : ℕ) : ℤ :=
  pyInt ((bar_w : ℚ) * spinnerProgress n_frames progress_start progress_end i)

/-- `add_spinner_progress(status_text, n_frames=36, progress_start=0.0,
progress_end=1.0)` (gen_teaser_v6.py lines 344-376): append `n_frames`
frames carrying the spinner overlay data; the scroll chases
`target + LINE_H * 3`. -/
def add_spinner_progress (status_text : String) (n_frames : ℕ := 36)
    (progress_start : ℚ := 0) (progress_end : ℚ := 1) (s : St) : St :=
  (List.range n_frames).foldl
    (fun s i =>
      let progress := spinnerProgress n_frames progress_start progress_end i
      let cycle_color := CYCLE_COLORS.getD (i % CYCLE_COLORS.length) PRIMARY
      let pct := pyInt (progress * 100)
      let tgt := target_scroll s.current_lines
      let sy := smooth_scroll s.scroll_y ((tgt : ℚ) + LINE_H * 3)
      { s with scroll_y := sy,
               frames := s.frames ++
                 [⟨s.current_lines, sy, none, true,
                   some ⟨progress, cycle_color, status_text, pct⟩, none⟩] })
    s

/-- `add_breathing_pause(n_frames)` (gen_teaser_v6.py lines 379-387):
append `n_frames` frames whose signoff colour is `breath_color(i)`.
`breath_color` is transcendental (`math.sin`), so it enters as the
parameter `breath`. -/
def add_breathing_pause (breath : ℕ → Color) (n_frames : ℕ) (s : St) : St :=
  (List.range n_frames).foldl
    (fun s i =>
      let tgt := target_scroll s.current_lines
      let sy := smooth_scroll s.scroll_y (tgt : ℚ)
      { s with scroll_y := sy,
               frames := s.frames ++ [⟨s.current_lines, sy, none, true, none, some (breath i)⟩] })
    s

/-- `current_lines.append(line)` as used throughout the script section. -/
def appendLine (line : Line) (s : St) : St :=
  { s with current_lines := s.current_lines ++ [line] }

/-- `current_lines[-1] = line` as used in the wink section
(gen_teaser_v6.py lines 527 and 533).  Python raises `IndexError` on an
empty buffer; every call in the scripts has a nonempty buffer, and on
nonempty buffers this is `dropLast ++ [line]`. -/
def setLastLine (line : Line) (s : St) : St :=
  { s with current_lines := s.current_lines.dropLast ++ [line] }

/-- The inline frame-capture loops of the wink section
(gen_teaser_v6.py lines 528-531 and 534-537): `n` iterations of
smooth-scroll plus `frames.append(render_frame(current_lines, scroll_y))`. -/
def rawFrames (n : ℕ) (s : St) : St :=
  (List.range n).foldl
    (fun s _ =>
      let tgt := target_scroll s.current_lines
      let sy := smooth_scroll s.scroll_y (tgt : ℚ)
      { s with scroll_y := sy,
               frames := s.frames ++ [⟨s.current_lines, sy, none, true, none, none⟩] })
    s

/-- One step of a run: every operation the script sections of the
generators perform on the module state. -/
inductive Beat where
  | typing (text : String) (color : Color) (prompt : Bool) (speed : ℕ) (use_prompt : Bool)
  | pause (n : ℕ) (blink : Bool)
  | pauseNoPrompt (n : ℕ) (blink : Bool)
  | outputLines (output : List Line) (delay : ℕ)
  | spinner (status : String) (n : ℕ) (ps pe : ℚ)
  | breathing (n : ℕ)
  | raw (n : ℕ)
  | appendL (line : Line)
  | setLastL (line : Line)
  | tok
  | bell

/-- Execute one beat on the module state. -/
def stepBeat (breath : ℕ → Color) : Beat → St → St
  | .typing text color prompt speed use_prompt => add_typing text color prompt speed use_prompt
  | .pause n blink => add_pause n blink
  | .pauseNoPrompt n blink => add_pause_no_prompt n blink
  | .outputLines output delay => add_output_lines output delay
  | .spinner status n ps pe => add_spinner_progress status n ps pe
  | .breathing n => add_breathing_pause breath n
  | .raw n => rawFrames n
  | .appendL line => appendLine line
  | .setLastL line => setLastLine line
  | .tok => add_tok
  | .bell => add_bell

/-- Execute a list of beats in order. -/
def runBeats (breath : ℕ → Color) (beats : List Beat) (s : St) : St :=
  beats.foldl (fun s b => stepBeat breath b s) s

/-- The number of frames a call to `add_typing` captures: one per
character index `i` in `[0, len(text))` with `i % speed == 0`. -/
def typingTicks (text : String) (speed : ℕ) : ℕ :=
  ((List.range text.length).filter (fun i => i % speed = 0)).length

/-- The number of ticks (captured frames) each beat requests. -/
def ticks : Beat → ℕ
  | .typing text _ _ speed _ => typingTicks text speed
  | .pause n _ => n
  | .pauseNoPrompt n _ => n
  | .outputLines output delay => output.length * delay
  | .spinner _ n _ _ => n
  | .breathing n => n
  | .raw n => n
  | .appendL _ => 0
  | .setLastL _ => 0
  | .tok => 0
  | .bell => 0

/-- A raster image: a function from pixel coordinates to colour.  The
canvas is `W × H`; only pixels with `0 ≤ x < W` and `0 ≤ y < H` exist in
the PIL image. -/
def Image := ℤ → ℤ → Color

/-- Which of the three loaded fonts a `draw.text` call uses. -/
inductive FontKind | mono | cjk | small

/-- Glyph coverage oracle for `draw.text`: given the font, the text, the
anchor coordinates and a pixel, decide whether the rasterized text covers
that pixel.  PIL's font rasterization is external, so it is a parameter
of the rendering functions; the theorems below hold for every oracle. -/
def TextRaster := FontKind → String → ℤ → ℤ → ℤ → ℤ → Bool

/-- `draw.rectangle([x0, y0, x1, y1], fill=c)`: PIL fills the inclusive
box. -/
def fillRect (x0 y0 x1 y1 : ℤ) (c : Color) (img : Image) : Image :=
  fun x y => if x0 ≤ x ∧ x ≤ x1 ∧ y0 ≤ y ∧ y ≤ y1 then c else img x y

/-- `draw.ellipse([x0, y0, x1, y1], fill=c)`, modelled as the ideal
closed disk of the bounding box (the only ellipses drawn are circles);
PIL's exact rasterization differs at most on boundary pixels, and the
theorems below use only that the painted set depends on nothing but the
arguments. -/
def fillEllipse (x0 y0 x1 y1 : ℤ) (c : Color) (img : Image) : Image :=
  fun x y =>
    if (2 * x - (x0 + x1)) ^ 2 + (2 * y - (y0 + y1)) ^ 2 ≤ (x1 - x0) ^ 2 then c
    else img x y

/-- `draw.text((ax, ay), text, fill=c, font=fk)`: paint `c` on every
pixel the oracle says the text covers. -/
def drawText (tr : TextRaster) (fk : FontKind) (text : String) (c : Color)
    (ax ay : ℤ) (img : Image) : Image :=
  fun x y => if tr fk text ax ay x y then c else img x y

/-- Whether `needle` occurs as a contiguous subsequence of the haystack;
implements Python's `needle in text` on the character lists. -/
def listHasSub (needle : List Char) : List Char → Bool
  | [] => needle.isEmpty
  | c :: rest => needle.isPrefixOf (c :: rest) || listHasSub needle rest

/-- `PROMPT_ICON in text`: selects the CJK font in `render_frame`. -/
def usesCjk (text : String) : Bool := listHasSub PROMPT_ICON.data text.data

/-- `is_signoff = (len(parts) == 1 and parts[0][0] == PROMPT_ICON)`
(gen_teaser_v6.py line 239). -/
def isSignoff (parts : Line) : Bool :=
  match parts with
  | [(t, _)] => t = PROMPT_ICON
  | _ => false

/-- The inner run loop of `render_frame` (gen_teaser_v6.py lines
240-247): draw each run at the running x position, advancing by
`len(text) * CHAR_W`; returns the final x position and the image. -/
def drawRuns (tr : TextRaster) (cw : ℤ) (recolor : Option Color) :
    List Run → ℤ → ℤ → Image → ℤ × Image
  | [], x, _, img => (x, img)
  | (text, color) :: rest, x, y, img =>
    let c := recolor.getD color
    let fk := if usesCjk text then FontKind.cjk else FontKind.mono
    let img := drawText tr fk text c x y img
    drawRuns tr cw recolor rest (x + (text.length : ℤ) * cw) y img

/-- The content loop of `render_frame` (gen_teaser_v6.py lines 234-247):
draw every buffer line at its scrolled y position, skipping lines outside
the vertical viewport; the signoff line is recoloured when a
`signoff_color` is given. -/
def drawContent (tr : TextRaster) (cw : ℤ) (signoff_color : Option Color)
    (lines : List Line) (base_y : ℤ) (img : Image) : Image :=
  lines.enum.foldl
    (fun img p =>
      let y := base_y + (p.1 : ℤ) * LINE_H
      if y < TITLE_BAR_H - LINE_H ∨ y > H then img
      else
        let recolor := if isSignoff p.2 then signoff_color else none
        (drawRuns tr cw recolor p.2 PAD_X y img).2)
    img

/-- The cursor block of `render_frame` (gen_teaser_v6.py lines 249-266):
when the cursor is visible and cursor runs are given, draw them on the
line after the buffer and paint the block cursor rectangle. -/
def drawCursor (tr : TextRaster) (cw : ℤ) (nlines : ℕ) (base_y : ℤ)
    (cursor_parts : Option (List Run)) (cursor_visible : Bool) (img : Image) : Image :=
  if cursor_visible then
    match cursor_parts with
    | none => img
    | some ps =>
      let y := base_y + (nlines : ℤ) * LINE_H
      if TITLE_BAR_H ≤ y ∧ y ≤ H then
        match ps with
        | [] => fillRect PAD_X (y + 8) (PAD_X + cw - 8) (y + LINE_H - 16) CURSOR_COLOR img
        | _ :: _ =>
          let r := drawRuns tr cw none ps PAD_X y img
          fillRect r.1 (y + 8) (r.1 + cw - 8) (y + LINE_H - 16) CURSOR_COLOR r.2
      else img
  else img

/-- `draw_title_bar(draw)` (gen_teaser_v6.py lines 220-226): fill the
title bar rectangle, then draw the three window dots at
`cx = 48 + i * 48`, `dot_y = TITLE_BAR_H // 2`, `dot_r = 14` (the
three-element colour loop is unrolled). -/
def draw_title_bar (img : Image) : Image :=
  let img := fillRect 0 0 W TITLE_BAR_H TITLE_BG img
  let dot_y : ℤ := TITLE_BAR_H / 2
  let dot_r : ℤ := 14
  let img := fillEllipse (48 - dot_r) (dot_y - dot_r) (48 + dot_r) (dot_y + dot_r)
    (255, 95, 86) img
  let img := fillEllipse (96 - dot_r) (dot_y - dot_r) (96 + dot_r) (dot_y + dot_r)
    (255, 189, 46) img
  fillEllipse (144 - dot_r) (dot_y - dot_r) (144 + dot_r) (dot_y + dot_r)
    (39, 201, 63) img

/-- `render_frame(lines, scroll_offset, cursor_parts, cursor_visible,
extra_draw, signoff_color)` (gen_teaser_v6.py lines 229-277): paint the
background, the scrolled content, the cursor, the overlay callback, and
finally the title bar rectangle and `draw_title_bar` on top of
everything.  `cw` is `CHAR_W`, which comes from the loaded font's
metrics, and `tr` is the glyph coverage oracle. -/
def render_frame (tr : TextRaster) (cw : ℤ) (lines : List Line) (scroll_offset : ℚ)
    (cursor_parts : Option (List Run)) (cursor_visible : Bool)
    (extra_draw : Option (ℤ → ℕ → Image → Image)) (signoff_color : Option Color) : Image :=
  let img : Image := fun _ _ => BG
  let base_y : ℤ := TITLE_BAR_H + PAD_Y - pyInt scroll_offset
  let img := drawContent tr cw signoff_color lines base_y img
  let img := drawCursor tr cw lines.length base_y cursor_parts cursor_visible img
  let img :=
    match extra_draw with
    | some ed => ed base_y lines.length img
    | none => img
  let img := fillRect 0 0 W TITLE_BAR_H TITLE_BG img
  draw_title_bar img

/-! ## Helper lemmas -/

theorem one_sub_speed_nonneg : (0 : ℚ) ≤ 1 - SCROLL_SPEED := by norm_num [SCROLL_SPEED]

theorem smooth_scroll_close {current target : ℚ} (h : |target - current| < 1) :
    smooth_scroll current target = target := by
  simp [smooth_scroll, h]

theorem smooth_scroll_far {current target : ℚ} (h : ¬ |target - current| < 1) :
    smooth_scroll current target = current + (target - current) * SCROLL_SPEED := by
  simp [smooth_scroll, h]

theorem smooth_scroll_gap_le (current target : ℚ) :
    |target - smooth_scroll current target| ≤ (1 - SCROLL_SPEED) * |target - current| := by
  by_cases h : |target - current| < 1
  · rw [smooth_scroll_close h]
    simp
    exact mul_nonneg one_sub_speed_nonneg (abs_nonneg _)
  · rw [smooth_scroll_far h]
    have he : target - (current + (target - current) * SCROLL_SPEED)
        = (1 - SCROLL_SPEED) * (target - current) := by ring
    rw [he, abs_mul, abs_of_nonneg one_sub_speed_nonneg]

theorem smooth_scroll_iter_gap (target : ℚ) (n : ℕ) (current : ℚ) :
    |target - (fun x => smooth_scroll x target)^[n] current|
      ≤ (1 - SCROLL_SPEED) ^ n * |target - current| := by
  induction n generalizing current with
  | zero => simp
  | succ n ih =>
    rw [Function.iterate_succ_apply]
    calc |target - (fun x => smooth_scroll x target)^[n] (smooth_scroll current target)|
        ≤ (1 - SCROLL_SPEED) ^ n * |target - smooth_scroll current target| := ih _
      _ ≤ (1 - SCROLL_SPEED) ^ n * ((1 - SCROLL_SPEED) * |target - current|) := by
          have h1 := smooth_scroll_gap_le current target
          have hp : (0 : ℚ) ≤ (1 - SCROLL_SPEED) ^ n := pow_nonneg one_sub_speed_nonneg n
          exact mul_le_mul_of_nonneg_left h1 hp
      _ = (1 - SCROLL_SPEED) ^ (n + 1) * |target - current| := by ring

theorem mixEvent_length (buf : List ℚ) (pos : ℕ) (w : List ℚ) :
    (mixEvent buf pos w).length = buf.length := by
  rw [mixEvent]
  generalize List.range w.length = l
  induction l generalizing buf with
  | nil => rfl
  | cons a l ih =>
    rw [List.foldl_cons, ih]
    split <;> simp

theorem mixEvents_length (buf : List ℚ) (ev : List ℕ) (w : List ℚ) :
    (mixEvents buf ev w).length = buf.length := by
  rw [mixEvents]
  induction ev generalizing buf with
  | nil => rfl
  | cons a l ih => rw [List.foldl_cons, ih, mixEvent_length]

theorem mixEvent_out_of_range (buf : List ℚ) (pos : ℕ) (w : List ℚ)
    (h : buf.length ≤ pos) : mixEvent buf pos w = buf := by
  rw [mixEvent]
  generalize List.range w.length = l
  induction l generalizing buf with
  | nil => rfl
  | cons a l ih =>
    rw [List.foldl_cons]
    have hlt : ¬ pos + a < buf.length := by omega
    rw [if_neg hlt]
    exact ih buf h

theorem samplePos_mono {n e : ℕ} (h : n ≤ e) : totalSamples n ≤ samplePos e :=
  Nat.div_le_div_right (Nat.mul_le_mul_right _ h)

theorem mixEvents_drop (buf : List ℚ) (e : ℕ) (l1 l2 : List ℕ) (w : List ℚ)
    (h : buf.length ≤ samplePos e) :
    mixEvents buf (l1 ++ e :: l2) w = mixEvents buf (l1 ++ l2) w := by
  rw [mixEvents, mixEvents, List.foldl_append, List.foldl_append, List.foldl_cons]
  have hlen : (l1.foldl (fun b f => mixEvent b (samplePos f) w) buf).length = buf.length :=
    mixEvents_length buf l1 w
  rw [mixEvent_out_of_range _ _ _ (by rw [hlen]; exact h)]

theorem sum_map_const {α : Type} (l : List α) (c : ℕ) :
    (l.map fun _ => c).sum = l.length * c := by
  induction l with
  | nil => simp
  | cons a l ih => simp [ih, Nat.succ_mul]; omega

theorem sum_map_ite_mod (speed : ℕ) (l : List ℕ) :
    (l.map fun i => if i % speed = 0 then 1 else 0).sum
      = (l.filter fun i => i % speed = 0).length := by
  induction l with
  | nil => rfl
  | cons a l ih => by_cases h : a % speed = 0 <;> simp [List.filter_cons, h, ih] <;> omega

theorem foldl_frames_length {α : Type} (f : St → α → St) (w : α → ℕ)
    (hf : ∀ s a, ((f s a).frames).length = s.frames.length + w a) :
    ∀ (l : List α) (s : St),
      ((l.foldl f s).frames).length = s.frames.length + (l.map w).sum := by
  intro l
  induction l with
  | nil => intro s; simp
  | cons a l ih =>
    intro s
    rw [List.foldl_cons, ih, hf, List.map_cons, List.sum_cons]
    omega

theorem foldl_lines_inv {α : Type} (f : St → α → St)
    (hf : ∀ s a, (f s a).current_lines = s.current_lines) :
    ∀ (l : List α) (s : St), (l.foldl f s).current_lines = s.current_lines := by
  intro l
  induction l with
  | nil => intro s; rfl
  | cons a l ih =>
    intro s
    rw [List.foldl_cons, ih, hf]

theorem typingStep_frames_length (pre : List Run) (text : String) (color : Color)
    (speed : ℕ) (s : St) (i : ℕ) :
    ((typingStep pre text color speed s i).frames).length
      = s.frames.length + if i % speed = 0 then 1 else 0 := by
  simp only [typingStep]
  split <;> simp

theorem add_typing_frames_length (text : String) (color : Color) (prompt : Bool)
    (speed : ℕ) (up : Bool) (s : St) :
    ((add_typing text color prompt speed up s).frames).length
      = s.frames.length + typingTicks text speed := by
  simp only [add_typing]
  rw [foldl_frames_length _ (fun i => if i % speed = 0 then 1 else 0)
    (typingStep_frames_length _ text color speed), sum_map_ite_mod]
  rfl

theorem add_pause_frames_length (n : ℕ) (blink : Bool) (s : St) :
    ((add_pause n blink s).frames).length = s.frames.length + n := by
  rw [add_pause]
  exact (foldl_frames_length _ (fun _ => 1) (by intro s i; simp) _ _).trans
    (by rw [sum_map_const]; simp)

theorem add_pause_no_prompt_frames_length (n : ℕ) (blink : Bool) (s : St) :
    ((add_pause_no_prompt n blink s).frames).length = s.frames.length + n := by
  rw [add_pause_no_prompt]
  exact (foldl_frames_length _ (fun _ => 1) (by intro s i; simp) _ _).trans
    (by rw [sum_map_const]; simp)

theorem add_output_lines_frames_length (output : List Line) (delay : ℕ) (s : St) :
    ((add_output_lines output delay s).frames).length
      = s.frames.length + output.length * delay := by
  rw [add_output_lines]
  refine (foldl_frames_length _ (fun _ => delay) ?_ _ _).trans
    (by rw [sum_map_const])
  intro s line
  exact (foldl_frames_length _ (fun _ => 1) (by intro s i; simp) _ _).trans
    (by rw [sum_map_const]; simp)

theorem add_spinner_progress_frames_length (status : String) (n : ℕ) (ps pe : ℚ) (s : St) :
    ((add_spinner_progress status n ps pe s).frames).length = s.frames.length + n := by
  rw [add_spinner_progress]
  exact (foldl_frames_length _ (fun _ => 1) (by intro s i; simp) _ _).trans
    (by rw [sum_map_const]; simp)

theorem add_breathing_pause_frames_length (breath : ℕ → Color) (n : ℕ) (s : St) :
    ((add_breathing_pause breath n s).frames).length = s.frames.length + n := by
  rw [add_breathing_pause]
  exact (foldl_frames_length _ (fun _ => 1) (by intro s i; simp) _ _).trans
    (by rw [sum_map_const]; simp)

theorem rawFrames_frames_length (n : ℕ) (s : St) :
    ((rawFrames n s).frames).length = s.frames.length + n := by
  rw [rawFrames]
  exact (foldl_frames_length _ (fun _ => 1) (by intro s i; simp) _ _).trans
    (by rw [sum_map_const]; simp)

theorem stepBeat_frames_length (breath : ℕ → Color) (b : Beat) (s : St) :
    ((stepBeat breath b s).frames).length = s.frames.length + ticks b := by
  cases b with
  | typing text color prompt speed up => exact add_typing_frames_length text color prompt speed up s
  | pause n blink => exact add_pause_frames_length n blink s
  | pauseNoPrompt n blink => exact add_pause_no_prompt_frames_length n blink s
  | outputLines output delay => exact add_output_lines_frames_length output delay s
  | spinner status n ps pe => exact add_spinner_progress_frames_length status n ps pe s
  | breathing n => exact add_breathing_pause_frames_length breath n s
  | raw n => exact rawFrames_frames_length n s
  | appendL line => simp [stepBeat, appendLine, ticks]
  | setLastL line => simp [stepBeat, setLastLine, ticks]
  | tok => simp [stepBeat, add_tok, ticks]
  | bell => simp [stepBeat, add_bell, ticks]

theorem add_typing_lines (text : String) (color : Color) (prompt : Bool)
    (speed : ℕ) (up : Bool) (s : St) :
    (add_typing text color prompt speed up s).current_lines = s.current_lines := by
  simp only [add_typing]
  exact foldl_lines_inv _ (fun s i => by simp [typingStep]) _ _

theorem add_pause_lines (n : ℕ) (blink : Bool) (s : St) :
    (add_pause n blink s).current_lines = s.current_lines := by
  rw [add_pause]
  refine foldl_lines_inv _ ?_ _ _
  intro s i
  rfl

theorem add_pause_no_prompt_lines (n : ℕ) (blink : Bool) (s : St) :
    (add_pause_no_prompt n blink s).current_lines = s.current_lines := by
  rw [add_pause_no_prompt]
  refine foldl_lines_inv _ ?_ _ _
  intro s i
  rfl

theorem add_spinner_progress_lines (status : String) (n : ℕ) (ps pe : ℚ) (s : St) :
    (add_spinner_progress status n ps pe s).current_lines = s.current_lines := by
  rw [add_spinner_progress]
  refine foldl_lines_inv _ ?_ _ _
  intro s i
  rfl

theorem add_breathing_pause_lines (breath : ℕ → Color) (n : ℕ) (s : St) :
    (add_breathing_pause breath n s).current_lines = s.current_lines := by
  rw [add_breathing_pause]
  refine foldl_lines_inv _ ?_ _ _
  intro s i
  rfl

theorem rawFrames_lines (n : ℕ) (s : St) :
    (rawFrames n s).current_lines = s.current_lines := by
  rw [rawFrames]
  refine foldl_lines_inv _ ?_ _ _
  intro s i
  rfl

theorem add_output_lines_lines (output : List Line) (delay : ℕ) (s : St) :
    (add_output_lines output delay s).current_lines = s.current_lines ++ output := by
  induction output generalizing s with
  | nil => simp [add_output_lines]
  | cons line rest ih =>
    rw [add_output_lines, List.foldl_cons]
    have h2 := ih ((List.range delay).foldl
      (fun s _ =>
        let tgt := target_scroll s.current_lines
        let sy := smooth_scroll s.scroll_y (tgt : ℚ)
        { s with scroll_y := sy,
                 frames := s.frames ++ [⟨s.current_lines, sy, none, true, none, none⟩] })
      { s with current_lines := s.current_lines ++ [line] })
    rw [add_output_lines] at h2
    rw [h2, foldl_lines_inv]
    · simp
    · intro s i
      rfl

theorem stepBeat_lines_mono (breath : ℕ → Color) (b : Beat) (s : St) :
    s.current_lines.length ≤ (stepBeat breath b s).current_lines.length := by
  cases b with
  | typing text color prompt speed up => rw [stepBeat, add_typing_lines]
  | pause n blink => rw [stepBeat, add_pause_lines]
  | pauseNoPrompt n blink => rw [stepBeat, add_pause_no_prompt_lines]
  | outputLines output delay => rw [stepBeat, add_output_lines_lines]; simp
  | spinner status n ps pe => rw [stepBeat, add_spinner_progress_lines]
  | breathing n => rw [stepBeat, add_breathing_pause_lines]
  | raw n => rw [stepBeat, rawFrames_lines]
  | appendL line => simp [stepBeat, appendLine]
  | setLastL line =>
    simp only [stepBeat, setLastLine, List.length_append, List.length_dropLast,
      List.length_singleton]
    omega
  | tok => exact le_refl _
  | bell => exact le_refl _

theorem runBeats_lines_mono (breath : ℕ → Color) (l : List Beat) (s : St) :
    s.current_lines.length ≤ (runBeats breath l s).current_lines.length := by
  induction l generalizing s with
  | nil => exact le_refl _
  | cons b l ih =>
    rw [runBeats, List.foldl_cons]
    exact le_trans (stepBeat_lines_mono breath b s) (ih (stepBeat breath b s))

theorem add_typing_speed_one_spec (pre : List Run) (text : String) (color : Color) :
    ∀ (n : ℕ) (s : St),
      (((List.range n).foldl (typingStep pre text color 1) s).frames).length
        = s.frames.length + n ∧
      ∀ i, i < n →
        ((((List.range n).foldl (typingStep pre text color 1) s).frames).getD
            (s.frames.length + i) default).cursorParts
          = some (pre ++ [(text.take (i + 1), color)]) := by
  intro n
  induction n with
  | zero => exact fun s => ⟨by simp, fun i hi => absurd hi (Nat.not_lt_zero i)⟩
  | succ n ih =>
    intro s
    rw [List.range_succ, List.foldl_append, List.foldl_cons, List.foldl_nil]
    obtain ⟨hlen, hspec⟩ := ih s
    set r := (List.range n).foldl (typingStep pre text color 1) s with hr
    have hf : (typingStep pre text color 1 r n).frames
        = r.frames ++ [⟨r.current_lines,
            smooth_scroll r.scroll_y
              ((target_scroll (r.current_lines ++ [pre ++ [(text.take (n + 1), color)]]) : ℤ) : ℚ),
            some (pre ++ [(text.take (n + 1), color)]), true, none, none⟩] := by
      simp [typingStep, Nat.mod_one]
    have hcp : (FrameSpec.cursorParts ⟨r.current_lines,
        smooth_scroll r.scroll_y
          ((target_scroll (r.current_lines ++ [pre ++ [(text.take (n + 1), color)]]) : ℤ) : ℚ),
        some (pre ++ [(text.take (n + 1), color)]), true, none, none⟩)
        = some (pre ++ [(text.take (n + 1), color)]) := rfl
    refine ⟨?_, ?_⟩
    · rw [hf]
      simp [hlen]
      omega
    · intro i hi
      rcases Nat.lt_succ_iff_lt_or_eq.mp hi with hi' | rfl
      · rw [hf, List.getD_append _ _ _ _ (by omega)]
        exact hspec i hi'
      · rw [hf, List.getD_append_right _ _ _ _ (by omega)]
        have hz : s.frames.length + i - r.frames.length = 0 := by omega
        rw [hz]
        exact hcp

theorem generate_audio_length (n : ℕ) (toks bells : List ℕ) (tok bell : List ℚ) :
    (generate_audio n toks bells tok bell).length = totalSamples n := by
  rw [generate_audio]
  simp [mixEvents_length]

theorem smooth_scroll_gap_eq (current target : ℚ) (h : 1 ≤ |target - current|) :
    |target - smooth_scroll current target| = (1 - SCROLL_SPEED) * |target - current| := by
  rw [smooth_scroll_far (not_lt.mpr h)]
  have he : target - (current + (target - current) * SCROLL_SPEED)
      = (1 - SCROLL_SPEED) * (target - current) := by ring
  rw [he, abs_mul, abs_of_nonneg one_sub_speed_nonneg]

theorem smooth_scroll_converges (current target : ℚ) :
    ∃ n : ℕ, (fun x => smooth_scroll x target)^[n] current = target := by
  by_cases h : |target - current| < 1
  · exact ⟨1, by simpa using smooth_scroll_close h⟩
  · push_neg at h
    have hg : (0 : ℚ) < |target - current| := lt_of_lt_of_le one_pos h
    obtain ⟨n, hn⟩ := exists_pow_lt_of_lt_one (x := |target - current|⁻¹)
      (y := 1 - SCROLL_SPEED) (by positivity) (by norm_num [SCROLL_SPEED])
    refine ⟨n + 1, ?_⟩
    have hlt : |target - (fun x => smooth_scroll x target)^[n] current| < 1 := by
      have h1 := smooth_scroll_iter_gap target n current
      have h2 : (1 - SCROLL_SPEED) ^ n * |target - current| < 1 := by
        have h3 := mul_lt_mul_of_pos_right hn hg
        rwa [inv_mul_cancel₀ (ne_of_gt hg)] at h3
      exact lt_of_le_of_lt h1 h2
    rw [Function.iterate_succ_apply']
    exact smooth_scroll_close hlt

theorem spinnerFillW_closed (i : ℕ) :
    spinnerFillW 30 0 1 i = ((880 * i) / 29 : ℕ) := by
  have h1 : spinnerProgress 30 0 1 i = (i : ℚ) / 29 := by
    simp [spinnerProgress]
  have h2 : (bar_w : ℚ) * spinnerProgress 30 0 1 i = ((880 * i : ℕ) : ℚ) / ((29 : ℕ) : ℚ) := by
    rw [h1]; push_cast [bar_w]; ring
  rw [spinnerFillW, pyInt, h2, if_pos (by positivity), Rat.floor_natCast_div_natCast]
  exact (Int.ofNat_div _ _).symm

theorem draw_title_bar_pixel (img img' : Image) (x y : ℤ)
    (hx0 : 0 ≤ x) (hx1 : x ≤ W) (hy0 : 0 ≤ y) (hy1 : y ≤ TITLE_BAR_H) :
    draw_title_bar img x y = draw_title_bar img' x y := by
  have hr : 0 ≤ x ∧ x ≤ W ∧ 0 ≤ y ∧ y ≤ TITLE_BAR_H := ⟨hx0, hx1, hy0, hy1⟩
  simp only [draw_title_bar, fillRect, fillEllipse, if_pos hr]

/-! ## Claim theorems -/

/-- C1: Frame count invariant.  At every point in a run, the length of
the frame list equals its starting length plus the sum of the ticks
requested by the beats executed so far, where `ticks` gives
`add_pause`/`add_pause_no_prompt` exactly `n` frames, `add_output_lines`
exactly `len(output) * delay` frames, `add_spinner_progress` exactly
`n_frames` frames, and `add_typing` exactly one frame per character
index `i` in `[0, len(text))` with `i % speed == 0`
(`typingTicks`). -/
theorem c1_frame_count_invariant (breath : ℕ → Color) (beats : List Beat) (s : St) :
    ((runBeats breath beats s).frames).length
      = s.frames.length + (beats.map ticks).sum := by
  induction beats generalizing s with
  | nil => simp [runBeats]
  | cons b l ih =>
    rw [runBeats, List.foldl_cons]
    have h1 := ih (stepBeat breath b s)
    rw [runBeats] at h1
    rw [h1, stepBeat_frames_length, List.map_cons, List.sum_cons]
    omega

/-- C2 (counterexample): the claim that `generate_audio(n, path)`
allocates a buffer of `ceil(n / FPS * SAMPLE_RATE)` samples fails at
`n = 1`: the code allocates `int(1 / 24 * 44100) = 1837` samples, while
the claimed ceiling is `1838`. -/
theorem c2_counterexample :
    (generate_audio 1 [] [] [] []).length ≠ ceilSamples 1 := by
  have h1 : (generate_audio 1 [] [] [] []).length = 1837 := by
    rw [generate_audio_length]
    decide
  have h2 : ceilSamples 1 = 1838 := by
    have h : ⌈((1 : ℕ) : ℚ) / (FPS : ℚ) * (SAMPLE_RATE : ℚ)⌉ = (1838 : ℤ) := by
      rw [Int.ceil_eq_iff]
      constructor <;> norm_num [FPS, SAMPLE_RATE]
    rw [ceilSamples, h]
    rfl
  rw [h1, h2]
  decide

/-- C2 (amended): for every total frame count `n`, `generate_audio`
allocates and writes an audio sample buffer whose length equals
`floor(n / FPS * SAMPLE_RATE)` samples (`totalSamples`, the exact value
of Python's `int(total_frames / FPS * SAMPLE_RATE)`); mixing preserves
that length. -/
theorem c2_buffer_length_floor (n : ℕ) (toks bells : List ℕ) (tok bell : List ℚ) :
    (generate_audio n toks bells tok bell).length = totalSamples n :=
  generate_audio_length n toks bells tok bell

/-- C3: for every line buffer `L`, `target_scroll L` equals the spec's
formula `max(0, content_height(L) - viewport_height + 2*LINE_H)` with
`content_height(L) = len(L)*LINE_H` and
`viewport_height = H - TITLE_BAR_H - 2*PAD_Y`, and is nonnegative. -/
theorem c3_target_scroll_contract (L : List Line) :
    target_scroll L = target_scroll_spec L ∧ 0 ≤ target_scroll L := by
  constructor
  · simp only [target_scroll, target_scroll_spec, content_bottom]
    congr 1
  · simp only [target_scroll]
    exact le_max_left 0 _

/-- C4: smoothing convergence.  Iterating `smooth_scroll` with a fixed
target reaches the target exactly after finitely many steps; once the
gap is below 1 the function returns the target itself, and while the gap
is at least 1 it shrinks by exactly the factor `1 - SCROLL_SPEED`. -/
theorem c4_smooth_scroll_convergence (current target : ℚ) :
    (∃ n : ℕ, (fun x => smooth_scroll x target)^[n] current = target) ∧
    (|target - current| < 1 → smooth_scroll current target = target) ∧
    (1 ≤ |target - current| →
      |target - smooth_scroll current target| = (1 - SCROLL_SPEED) * |target - current|) :=
  ⟨smooth_scroll_converges current target,
   fun h => smooth_scroll_close h,
   fun h => smooth_scroll_gap_eq current target h⟩

/-- Witness for C4 at concrete inputs: the gap `|5 - 9/2| = 1/2 < 1`
snaps to the target, and from `current = 0`, `target = 5` the gap
shrinks by exactly `1 - SCROLL_SPEED`. -/
theorem c4_smooth_scroll_convergence_witness :
    smooth_scroll (9 / 2) 5 = 5 ∧
      |(5 : ℚ) - smooth_scroll 0 5| = (1 - SCROLL_SPEED) * |(5 : ℚ) - 0| :=
  ⟨(c4_smooth_scroll_convergence (9 / 2) 5).2.1
      (by rw [show (5 : ℚ) - 9 / 2 = 1 / 2 by norm_num, abs_of_nonneg] <;> norm_num),
   (c4_smooth_scroll_convergence 0 5).2.2
      (by rw [show (5 : ℚ) - 0 = 5 by norm_num, abs_of_nonneg] <;> norm_num)⟩

/-- C5: an audio event whose frame index is at least the total frame
count passed to `generate_audio` leaves the sample buffer exactly as it
would be without that event — every sample of its waveform falls at an
index at or beyond the buffer length and is discarded by the mixing
guard; the mixing functions are total, so no error is raised and the
event is never validated against the frame count.  Stated for an event
anywhere in the tok list and anywhere in the bell list. -/
theorem c5_late_event_silently_dropped (n e : ℕ) (ts1 ts2 toks bs1 bs2 bells : List ℕ)
    (tok bell : List ℚ) (he : n ≤ e) :
    (generate_audio n (ts1 ++ e :: ts2) bells tok bell
        = generate_audio n (ts1 ++ ts2) bells tok bell) ∧
    (generate_audio n toks (bs1 ++ e :: bs2) tok bell
        = generate_audio n toks (bs1 ++ bs2) tok bell) := by
  have hp : (List.replicate (totalSamples n) (0 : ℚ)).length ≤ samplePos e := by
    rw [List.length_replicate]
    exact samplePos_mono he
  constructor
  · rw [generate_audio, generate_audio, mixEvents_drop _ _ _ _ _ hp]
  · rw [generate_audio, generate_audio]
    apply mixEvents_drop
    rw [mixEvents_length, List.length_replicate]
    exact samplePos_mono he

/-- Witness for C5: a tok and a bell event at frame 5 of a 2-frame run
change nothing. -/
theorem c5_late_event_silently_dropped_witness :
    (generate_audio 2 ([] ++ 5 :: []) [] [] [] = generate_audio 2 ([] ++ []) [] [] []) ∧
    (generate_audio 2 [] ([] ++ 5 :: []) [] [] = generate_audio 2 [] ([] ++ []) [] []) :=
  c5_late_event_silently_dropped 2 5 [] [] [] [] [] [] [] [] (by decide)

/-- C6: for a progress beat with `n_frames = 30`, `progress_start = 0`,
`progress_end = 1`, the sequence of computed bar-fill widths
`int(bar_w * p_i)` over `i = 0..29` is monotonically non-decreasing,
starts at `0` and ends at the full bar width `bar_w`. -/
theorem c6_progress_bar_monotone :
    List.Chain' (· ≤ ·) ((List.range 30).map (spinnerFillW 30 0 1)) ∧
    spinnerFillW 30 0 1 0 = 0 ∧ spinnerFillW 30 0 1 29 = bar_w := by
  refine ⟨?_, ?_, ?_⟩
  · rw [List.chain'_map, List.chain'_range_succ]
    intro m hm
    rw [spinnerFillW_closed, spinnerFillW_closed]
    exact_mod_cast Nat.div_le_div_right (Nat.mul_le_mul_left 880 (Nat.le_succ m))
  · rw [spinnerFillW_closed]
    norm_num
  · rw [spinnerFillW_closed]
    norm_num [bar_w]

/-- C7: typing a 10-character string at `speed = 1` appends exactly 10
frames, and the `i`-th appended frame carries cursor runs equal to the
prompt followed by the prefix `text[:i+1]`. -/
theorem c7_typing_ten_frames (text : String) (color : Color) (s : St)
    (h : text.length = 10) :
    ((add_typing text color true 1 true s).frames).length = s.frames.length + 10 ∧
    ∀ i, i < 10 →
      (((add_typing text color true 1 true s).frames).getD
          (s.frames.length + i) default).cursorParts
        = some (PROMPT ++ [(text.take (i + 1), color)]) := by
  have hb : add_typing text color true 1 true s
      = (List.range text.length).foldl (typingStep PROMPT text color 1) s := by
    simp [add_typing]
  rw [hb, h]
  exact add_typing_speed_one_spec PROMPT text color 10 s

/-- Witness for C7 at `text = "0123456789"` from the initial state. -/
theorem c7_typing_ten_frames_witness :
    ("0123456789".length = 10) ∧
    (((add_typing "0123456789" PRIMARY true 1 true St.init).frames).length
        = St.init.frames.length + 10 ∧
      ∀ i, i < 10 →
        (((add_typing "0123456789" PRIMARY true 1 true St.init).frames).getD
            (St.init.frames.length + i) default).cursorParts
          = some (PROMPT ++ [("0123456789".take (i + 1), PRIMARY)])) :=
  ⟨rfl, c7_typing_ten_frames "0123456789" PRIMARY St.init rfl⟩

/-- C8: the pixels of the top `TITLE_BAR_H` rows of a rendered frame are
identical across any two calls to `render_frame` — for every glyph
oracle, character width, line buffer, scroll offset, cursor content and
visibility, overlay callback and signoff colour — because the header bar
is painted after all content, cursor and overlay drawing. -/
theorem c8_title_bar_rows_fixed
    (tr tr' : TextRaster) (cw cw' : ℤ) (lines lines' : List Line) (so so' : ℚ)
    (cp cp' : Option (List Run)) (cv cv' : Bool)
    (ed ed' : Option (ℤ → ℕ → Image → Image)) (sc sc' : Option Color)
    (x y : ℤ) (hx0 : 0 ≤ x) (hx1 : x < W) (hy0 : 0 ≤ y) (hy1 : y < TITLE_BAR_H) :
    render_frame tr cw lines so cp cv ed sc x y
      = render_frame tr' cw' lines' so' cp' cv' ed' sc' x y := by
  simp only [render_frame]
  exact draw_title_bar_pixel _ _ x y hx0 (le_of_lt hx1) hy0 (le_of_lt hy1)

/-- Witness for C8: two maximally different calls agree at pixel (0,0). -/
theorem c8_title_bar_rows_fixed_witness :
    render_frame (fun _ _ _ _ _ _ => false) 30 [] 0 none true none none 0 0
      = render_frame (fun _ _ _ _ _ _ => true) 35 [[("a", BG)]] 7 (some PROMPT) false
          none (some PRIMARY) 0 0 :=
  c8_title_bar_rows_fixed (fun _ _ _ _ _ _ => false) (fun _ _ _ _ _ _ => true)
    30 35 [] [[("a", BG)]] 0 7 none (some PROMPT) true false none none none (some PRIMARY)
    0 0 (by decide) (by decide) (by decide) (by decide)

/-- C9: the line buffer never shrinks — every beat either leaves the
buffer unchanged, appends lines, or replaces the last line in place, so
its length is non-decreasing across every beat and across every prefix
of a run. -/
theorem c9_line_buffer_never_shrinks (breath : ℕ → Color) (b : Beat)
    (l1 l2 : List Beat) (s : St) :
    s.current_lines.length ≤ (stepBeat breath b s).current_lines.length ∧
    ((runBeats breath l1 s).current_lines).length
      ≤ ((runBeats breath (l1 ++ l2) s).current_lines).length := by
  refine ⟨stepBeat_lines_mono breath b s, ?_⟩
  have hsplit : runBeats breath (l1 ++ l2) s = runBeats breath l2 (runBeats breath l1 s) := by
    rw [runBeats, runBeats, runBeats, List.foldl_append]
  rw [hsplit]
  exact runBeats_lines_mono breath l2 (runBeats breath l1 s)

/-- C10: `smooth_scroll` never overshoots — the result lies in the
closed interval between `current` and `target`, and the distance to the
target never increases, strictly decreasing unless it is already 0. -/
theorem c10_smooth_scroll_no_overshoot (current target : ℚ) :
    (min current target ≤ smooth_scroll current target ∧
      smooth_scroll current target ≤ max current target) ∧
    |smooth_scroll current target - target| ≤ |current - target| ∧
    (current = target ∨
      |smooth_scroll current target - target| < |current - target|) := by
  by_cases h : |target - current| < 1
  · rw [smooth_scroll_close h]
    refine ⟨⟨min_le_right _ _, le_max_right _ _⟩, by simp, ?_⟩
    by_cases hct : current = target
    · exact Or.inl hct
    · exact Or.inr (by simpa using abs_pos.mpr (sub_ne_zero.mpr hct))
  · rw [smooth_scroll_far h]
    push_neg at h
    have hg : (1 : ℚ) ≤ |current - target| := by rwa [abs_sub_comm] at h
    have hgz : (0 : ℚ) ≤ |current - target| := abs_nonneg _
    have hs : (0 : ℚ) < SCROLL_SPEED := by norm_num [SCROLL_SPEED]
    have hsg : 0 < SCROLL_SPEED * |current - target| :=
      mul_pos hs (lt_of_lt_of_le one_pos hg)
    have he : current + (target - current) * SCROLL_SPEED - target
        = (1 - SCROLL_SPEED) * (current - target) := by ring
    have habs : |current + (target - current) * SCROLL_SPEED - target|
        = (1 - SCROLL_SPEED) * |current - target| := by
      rw [he, abs_mul, abs_of_nonneg one_sub_speed_nonneg]
    refine ⟨?_, ?_, Or.inr ?_⟩
    · rcases le_total current target with hle | hle
      · rw [min_eq_left hle, max_eq_right hle]
        constructor <;> rw [SCROLL_SPEED] <;> nlinarith
      · rw [min_eq_right hle, max_eq_left hle]
        constructor <;> rw [SCROLL_SPEED] <;> nlinarith
    · rw [habs]
      linarith
    · rw [habs]
      linarith

end Kinobi
